import Mathlib

/-!
Verification of the continuous-action cart-pole environment
(`env/cartpole_continuous.py`, class `CartPoleContinuousEnv`).

The environment object is embedded as a record `Env` holding the
configuration constants written by `__init__`, the loaded linear-model
matrix `F_t`, the declared action/observation-space bounds, the seeded
random source, the mutable 4-component physical state and the
termination counter `steps_beyond_done`.  The methods `_state_eq`,
`_step` and `_reset` become the pure functions `state_eq`, `stepWith`
(`step` for the version reading the stored state) and `reset` over this
record, with real-number arithmetic standing for the numeric code.
-/

namespace CartPole

noncomputable section

/-- The 4-component physical state `(x, x_dot, theta, theta_dot)`:
cart position, cart velocity, pole angle (radians), pole angular velocity. -/
structure CPState where
  x : ℝ
  xdot : ℝ
  theta : ℝ
  thetadot : ℝ

/-- The environment object: every attribute assigned by `__init__`
(other than the viewer, which the dynamics core never reads) —
configuration constants, the linear-model matrix `F_t` obtained by
concatenating the loaded `G` (4×4) and `H` (4×1), the declared
action/observation-space bounds, the seeded random source `np_random`,
the mutable state (initially absent) and the termination counter
`steps_beyond_done` (initially unset). -/
structure Env where
  gravity : ℝ
  masscart : ℝ
  masspole : ℝ
  total_mass : ℝ
  length : ℝ
  polemass_length : ℝ
  max_force : ℝ
  tau : ℝ
  b : ℝ
  I : ℝ
  F_t : Fin 4 → Fin 5 → ℝ
  theta_threshold_radians : ℝ
  x_threshold : ℝ
  action_low : ℝ
  action_high : ℝ
  obs_high : Fin 4 → ℝ
  np_random : ℕ
  state : Option CPState
  steps_beyond_done : Option ℕ

/-- Largest finite single-precision float, the value of
`np.finfo(np.float32).max` used for the velocity observation bounds. -/
def float32max : ℝ := (2 - (2 : ℝ) ^ (-23 : ℤ)) * 2 ^ (127 : ℕ)

/-- Environment construction (`__init__`): the fixed numeric constants, the
derived quantities (`total_mass = masspole + masscart`,
`polemass_length = masspole * length`), the transition matrix `F_t = [G | H]`
loaded from external files (abstracted as the parameter `Ft`), the derived
thresholds, the declared action/observation-space bounds, the effective
seed of the random source, no state, and an unset termination counter. -/
def mkEnv (Ft : Fin 4 → Fin 5 → ℝ) (seed : ℕ) : Env where
  gravity := 9.8
  masscart := 0.5
  masspole := 0.1
  total_mass := 0.1 + 0.5
  length := 0.3
  polemass_length := 0.1 * 0.3
  max_force := 20.0
  tau := 0.005
  b := 0.1
  I := 0.012
  F_t := Ft
  theta_threshold_radians := 12 * 2 * Real.pi / 360
  x_threshold := 2.4
  action_low := -20.0
  action_high := 20.0
  obs_high := ![2.4 * 2, float32max, (12 * 2 * Real.pi / 360) * 2, float32max]
  np_random := seed
  state := none
  steps_beyond_done := none

/-- Boolean truth value of an arbitrary proposition (the coercion Python's
`bool(...)` performs on the result of the chained comparisons). -/
def pdecide (p : Prop) : Bool := @decide p (Classical.propDecidable p)

/-- The state-transition method `_state_eq`: the linear-model product
`F_t @ [state; action]` is computed into `result` (and discarded), then the
nonlinear dynamics with friction are evaluated, the four components are
Euler-integrated with step `tau`, and the updated angle is wrapped once
across the ±π boundary. -/
def state_eq (env : Env) (st : CPState) (u : ℝ) : CPState :=
  let states : Fin 5 → ℝ := ![st.x, st.xdot, st.theta, st.thetadot, u]
  let result : Fin 4 → ℝ := fun i => Finset.univ.sum fun j => env.F_t i j * states j
  let force : ℝ := -u
  let costheta := Real.cos st.theta
  let sintheta := Real.sin st.theta
  let temp := (force + env.polemass_length * st.thetadot * st.thetadot * sintheta
      - env.b * st.xdot) / env.total_mass
  let thetaacc := (env.gravity * sintheta - costheta * temp) /
    (env.I / env.masspole + env.length - env.masspole * costheta ^ 2 / env.total_mass)
  let xacc := temp - env.polemass_length * thetaacc * costheta / env.total_mass
  let x := st.x + env.tau * st.xdot
  let x_dot := st.xdot + env.tau * xacc
  let theta := st.theta + env.tau * st.thetadot
  let theta_dot := st.thetadot + env.tau * thetaacc
  let theta2 := if st.theta < Real.pi ∧ theta ≥ Real.pi then theta - 2 * Real.pi
    else if st.theta > -Real.pi ∧ theta ≤ -Real.pi then theta + 2 * Real.pi
    else theta
  ⟨x, x_dot, theta2, theta_dot⟩

/-- Exactly the failure condition of `_step`: the post-step state has left
the position or angle band (all comparisons strict). -/
def done_cond (env : Env) (s : CPState) : Prop :=
  s.x < -env.x_threshold ∨ s.x > env.x_threshold ∨
    s.theta < -env.theta_threshold_radians ∨ s.theta > env.theta_threshold_radians

/-- Everything a `_step` call produces: the updated environment object, the
returned observation (the new state), the reward, the returned `done` flag,
and whether the post-termination advisory warning was logged on this call. -/
structure StepOut where
  env : Env
  obs : CPState
  reward : ℝ
  done : Bool
  warn : Bool

open Classical in
/-- The body of `_step` once the stored state has been read into `st`:
advance the state, overwrite it, classify termination against the
thresholds, and apply the three-way reward policy on the termination
counter (the warning fires exactly when the episode is done and the
counter at entry is `some 0`). -/
def stepWith (env : Env) (st : CPState) (u : ℝ) : StepOut :=
  let s2 := state_eq env st u
  let d := done_cond env s2
  if d then
    match env.steps_beyond_done with
    | none =>
        ⟨{ env with state := some s2, steps_beyond_done := some 0 }, s2, 1, pdecide d, false⟩
    | some n =>
        ⟨{ env with state := some s2, steps_beyond_done := some (n + 1) }, s2, 0, pdecide d,
          decide (n = 0)⟩
  else ⟨{ env with state := some s2, steps_beyond_done := env.steps_beyond_done }, s2, 1,
    pdecide d, false⟩

/-- The method `_step`: reads the stored state (failing, as the Python code
would, when no reset has happened yet) and runs the step body on it. -/
def step (env : Env) (u : ℝ) : Option StepOut :=
  env.state.map fun st => stepWith env st u

/-- The method `_reset`: unconditionally store the fixed initial state
`(-5.0, 0.0, 0.3π, 0.0)`, clear the termination counter, and return a copy
of the initial state. -/
def reset (env : Env) : Env × CPState :=
  ({ env with state := some ⟨-5, 0, 0.3 * Real.pi, 0⟩, steps_beyond_done := none },
    ⟨-5, 0, 0.3 * Real.pi, 0⟩)

/-- The §4.1 algorithm exactly as the specification words it (steps 1–6,
including the single angle-wrap correction of step 6), written down
independently of `state_eq` for the refinement comparison of claim C1. -/
def advance_spec (env : Env) (st : CPState) (u : ℝ) : CPState :=
  let force : ℝ := -u
  let temp := (force + env.polemass_length * st.thetadot ^ 2 * Real.sin st.theta
      - env.b * st.xdot) / env.total_mass
  let thetaacc := (env.gravity * Real.sin st.theta - Real.cos st.theta * temp) /
    (env.I / env.masspole + env.length - env.masspole * Real.cos st.theta ^ 2 / env.total_mass)
  let xacc := temp - env.polemass_length * thetaacc * Real.cos st.theta / env.total_mass
  let x := st.x + env.tau * st.xdot
  let x_dot := st.xdot + env.tau * xacc
  let theta := st.theta + env.tau * st.thetadot
  let theta_dot := st.thetadot + env.tau * thetaacc
  let theta2 := if st.theta < Real.pi ∧ theta ≥ Real.pi then theta - 2 * Real.pi
    else if st.theta > -Real.pi ∧ theta ≤ -Real.pi then theta + 2 * Real.pi
    else theta
  ⟨x, x_dot, theta2, theta_dot⟩

/-- Agreement of every configuration attribute set at construction:
the physical constants, the loaded matrix, the derived thresholds and the
declared action/observation-space bounds. -/
def configEq (e1 e2 : Env) : Prop :=
  e1.gravity = e2.gravity ∧ e1.masscart = e2.masscart ∧ e1.masspole = e2.masspole ∧
    e1.total_mass = e2.total_mass ∧ e1.length = e2.length ∧
    e1.polemass_length = e2.polemass_length ∧ e1.max_force = e2.max_force ∧
    e1.tau = e2.tau ∧ e1.b = e2.b ∧ e1.I = e2.I ∧ e1.F_t = e2.F_t ∧
    e1.theta_threshold_radians = e2.theta_threshold_radians ∧
    e1.x_threshold = e2.x_threshold ∧ e1.action_low = e2.action_low ∧
    e1.action_high = e2.action_high ∧ e1.obs_high = e2.obs_high

/-- An all-zero stand-in for the externally loaded transition matrix, used
for concrete instances. -/
def Ft0 : Fin 4 → Fin 5 → ℝ := fun _ _ => 0

/-- A freshly constructed environment with the zero matrix and seed 0. -/
def env0 : Env := mkEnv Ft0 0

/-- The cart-position component of the transition depends only on the old
position and velocity. -/
theorem state_eq_x (env : Env) (st : CPState) (u : ℝ) :
    (state_eq env st u).x = st.x + env.tau * st.xdot := rfl

/-- The angle component of the transition: Euler update with the old angular
velocity followed by the single wrap correction. -/
theorem state_eq_theta (env : Env) (st : CPState) (u : ℝ) :
    (state_eq env st u).theta =
      (if st.theta < Real.pi ∧ st.theta + env.tau * st.thetadot ≥ Real.pi then
        st.theta + env.tau * st.thetadot - 2 * Real.pi
      else if st.theta > -Real.pi ∧ st.theta + env.tau * st.thetadot ≤ -Real.pi then
        st.theta + env.tau * st.thetadot + 2 * Real.pi
      else st.theta + env.tau * st.thetadot) := rfl

/-- A true proposition decides to `true`. -/
theorem pdecide_eq_true {p : Prop} (h : p) : pdecide p = true := by
  simp [pdecide, h]

/-- A false proposition decides to `false`. -/
theorem pdecide_eq_false {p : Prop} (h : ¬ p) : pdecide p = false := by
  simp [pdecide, h]

/-- Deciding to `true` is equivalent to the proposition. -/
theorem pdecide_eq_true_iff (p : Prop) : pdecide p = true ↔ p := by
  simp [pdecide]

/-- Deciding to `false` is equivalent to the negation. -/
theorem pdecide_eq_false_iff (p : Prop) : pdecide p = false ↔ ¬ p := by
  simp [pdecide]

/-- Step equation when the post-step state is inside the alive region:
reward 1, counter untouched, no warning. -/
theorem stepWith_not_done (env : Env) (st : CPState) (u : ℝ)
    (h : ¬ done_cond env (state_eq env st u)) :
    stepWith env st u =
      ⟨{ env with state := some (state_eq env st u), steps_beyond_done := env.steps_beyond_done },
        state_eq env st u, 1, false, false⟩ := by
  simp only [stepWith]
  rw [if_neg h, pdecide_eq_false h]

/-- Step equation for the first terminating step (counter unset at entry):
reward 1, counter set to 0, no warning. -/
theorem stepWith_done_none (env : Env) (st : CPState) (u : ℝ)
    (h : done_cond env (state_eq env st u)) (hc : env.steps_beyond_done = none) :
    stepWith env st u =
      ⟨{ env with state := some (state_eq env st u), steps_beyond_done := some 0 },
        state_eq env st u, 1, true, false⟩ := by
  simp only [stepWith]
  rw [if_pos h, hc, pdecide_eq_true h]

/-- Step equation for a repeated post-termination step (counter set at
entry): reward 0, counter incremented, warning exactly on the first repeat. -/
theorem stepWith_done_some (env : Env) (st : CPState) (u : ℝ) (n : ℕ)
    (h : done_cond env (state_eq env st u)) (hc : env.steps_beyond_done = some n) :
    stepWith env st u =
      ⟨{ env with state := some (state_eq env st u), steps_beyond_done := some (n + 1) },
        state_eq env st u, 0, true, decide (n = 0)⟩ := by
  simp only [stepWith]
  rw [if_pos h, hc, pdecide_eq_true h]

/-- The returned done flag is the decision of the threshold condition on the
post-step state, whatever branch was taken. -/
theorem stepWith_done_flag (env : Env) (st : CPState) (u : ℝ) :
    (stepWith env st u).done = pdecide (done_cond env (state_eq env st u)) := by
  by_cases h : done_cond env (state_eq env st u)
  · cases hc : env.steps_beyond_done with
    | none => rw [stepWith_done_none env st u h hc, pdecide_eq_true h]
    | some n => rw [stepWith_done_some env st u n h hc, pdecide_eq_true h]
  · rw [stepWith_not_done env st u h, pdecide_eq_false h]

/-- Replacing only the mutable/episode fields of the environment leaves every
configuration attribute in agreement. -/
theorem configEq_update (env : Env) (s : Option CPState) (c : Option ℕ) :
    configEq { env with state := s, steps_beyond_done := c } env :=
  ⟨rfl, rfl, rfl, rfl, rfl, rfl, rfl, rfl, rfl, rfl, rfl, rfl, rfl, rfl, rfl, rfl⟩

/-- A step writes only the state and the termination counter: the resulting
environment agrees with the entry environment on every configuration field
and on the random source. -/
theorem stepWith_frame (env : Env) (st : CPState) (u : ℝ) :
    configEq (stepWith env st u).env env ∧
      (stepWith env st u).env.np_random = env.np_random := by
  by_cases h : done_cond env (state_eq env st u)
  · cases hc : env.steps_beyond_done with
    | none => rw [stepWith_done_none env st u h hc]; exact ⟨configEq_update env _ _, rfl⟩
    | some n => rw [stepWith_done_some env st u n h hc]; exact ⟨configEq_update env _ _, rfl⟩
  · rw [stepWith_not_done env st u h]; exact ⟨configEq_update env _ _, rfl⟩

/-- The angle after a step is exactly the Euler-updated angle when the old
angle and angular velocity are both zero (no wrap branch fires). -/
theorem state_eq_theta_zero (env : Env) (st : CPState) (u : ℝ)
    (h1 : st.theta = 0) (h2 : st.thetadot = 0) : (state_eq env st u).theta = 0 := by
  have hpi := Real.pi_pos
  rw [state_eq_theta, h1, h2, mul_zero, add_zero]
  rw [if_neg (by rintro ⟨-, hge⟩; linarith), if_neg (by rintro ⟨-, hle⟩; linarith)]

/-- The post-step cart position from the all-zero state is zero. -/
theorem x_zero : (state_eq env0 ⟨0, 0, 0, 0⟩ 0).x = 0 := by
  rw [state_eq_x]
  show (0 : ℝ) + 0.005 * 0 = 0
  norm_num

/-- The post-step angle from the all-zero state is zero. -/
theorem theta_zero : (state_eq env0 ⟨0, 0, 0, 0⟩ 0).theta = 0 :=
  state_eq_theta_zero env0 ⟨0, 0, 0, 0⟩ 0 rfl rfl

/-- The constructed angle threshold (12 degrees in radians) is positive. -/
theorem thr_pos : 0 < env0.theta_threshold_radians := by
  show (0 : ℝ) < 12 * 2 * Real.pi / 360
  linarith [Real.pi_pos]

/-- The all-zero state steps to a state inside the alive region. -/
theorem not_done_zero : ¬ done_cond env0 (state_eq env0 ⟨0, 0, 0, 0⟩ 0) := by
  have hthr := thr_pos
  rintro (h | h | h | h)
  · rw [x_zero] at h
    exact absurd h (by show ¬ ((0 : ℝ) < -(2.4 : ℝ)); norm_num)
  · rw [x_zero] at h
    exact absurd h (by show ¬ ((0 : ℝ) > (2.4 : ℝ)); norm_num)
  · rw [theta_zero] at h
    linarith
  · rw [theta_zero] at h
    linarith

/-- C1: `_state_eq` computes the next state by exactly the §4.1 algorithm —
negated force, the `temp`/`thetaacc`/`xacc` formulas, the explicit-Euler
update of all four components with step size `tau`, and the single ±π
angle-wrap correction: it coincides with the specification transcription
`advance_spec` on every state, action and configuration. -/
theorem claim_C1 (env : Env) (st : CPState) (u : ℝ) :
    state_eq env st u = advance_spec env st u := by
  simp only [state_eq, advance_spec, CPState.mk.injEq]
  refine ⟨trivial, ?_, trivial, ?_⟩ <;> ring

/-- C5: whatever the prior episode history left in the environment, `_reset`
stores exactly the state `(-5.0, 0.0, 0.3π, 0.0)`, clears the termination
counter to unset, and returns that initial state. -/
theorem claim_C5 (env : Env) :
    (reset env).1.state = some ⟨-5, 0, 0.3 * Real.pi, 0⟩ ∧
      (reset env).1.steps_beyond_done = none ∧
      (reset env).2 = ⟨-5, 0, 0.3 * Real.pi, 0⟩ :=
  ⟨rfl, rfl, rfl⟩

/-- C7: the state transition is deterministic — on identical state and
action, two environments agreeing on every configuration constant produce
identical next states; in particular the result never depends on the random
source, the stored state or the termination counter (there is no hidden
input). -/
theorem claim_C7 (e1 e2 : Env) (st : CPState) (u : ℝ) (h : configEq e1 e2) :
    state_eq e1 st u = state_eq e2 st u := by
  obtain ⟨h1, h2, h3, h4, h5, h6, h7, h8, h9, h10, h11, h12, h13, h14, h15, h16⟩ := h
  simp only [state_eq]
  rw [h1, h3, h4, h5, h6, h8, h9, h10]

/-- Witness for C7 at a concrete input: an environment differing only in the
random source and the termination counter yields the same next state. -/
theorem claim_C7_witness :
    state_eq env0 ⟨0, 0, 0, 0⟩ 0 =
      state_eq { env0 with np_random := 42, steps_beyond_done := some 3 } ⟨0, 0, 0, 0⟩ 0 :=
  claim_C7 env0 { env0 with np_random := 42, steps_beyond_done := some 3 } ⟨0, 0, 0, 0⟩ 0
    ⟨rfl, rfl, rfl, rfl, rfl, rfl, rfl, rfl, rfl, rfl, rfl, rfl, rfl, rfl, rfl, rfl⟩

/-- C8: the next state does not depend on the loaded linear model — replacing
the matrix `F_t` by any other matrix leaves the state transition unchanged
(the product `F_t @ [state; action]` is computed into a local that is
discarded). -/
theorem claim_C8 (env : Env) (Ft : Fin 4 → Fin 5 → ℝ) (st : CPState) (u : ℝ) :
    state_eq { env with F_t := Ft } st u = state_eq env st u := rfl

/-- C2 (as frozen) is refuted: from the pre-step state `(0, 1000, 0, 0)` —
whose angle 0 and position 0 are strictly inside the thresholds — a step
with action 0 drags the cart to `x = 5 > 2.4`, so the returned done flag is
`true`, not `false`. -/
theorem claim_C2_counterexample :
    (-env0.theta_threshold_radians < (0 : ℝ) ∧ (0 : ℝ) < env0.theta_threshold_radians ∧
      -env0.x_threshold < (0 : ℝ) ∧ (0 : ℝ) < env0.x_threshold) ∧
      (stepWith env0 ⟨0, 1000, 0, 0⟩ 0).done = true := by
  have hthr := thr_pos
  have hd : done_cond env0 (state_eq env0 ⟨0, 1000, 0, 0⟩ 0) := by
    refine Or.inr (Or.inl ?_)
    rw [state_eq_x]
    show (0 : ℝ) + 0.005 * 1000 > 2.4
    norm_num
  refine ⟨⟨by linarith, hthr, ?_, ?_⟩, ?_⟩
  · show -(2.4 : ℝ) < 0
    norm_num
  · show (0 : ℝ) < 2.4
    norm_num
  · rw [stepWith_done_none env0 ⟨0, 1000, 0, 0⟩ 0 hd rfl]

/-- C2 (amended): when the state produced by the step has theta strictly
inside `(-theta_threshold_radians, theta_threshold_radians)` and x strictly
inside `(-x_threshold, x_threshold)`, the step call returns reward 1.0 and
done = false (the code evaluates the thresholds on the post-step state, not
on the state the step was taken from). -/
theorem claim_C2 (env : Env) (st : CPState) (u : ℝ)
    (hx1 : -env.x_threshold < (state_eq env st u).x)
    (hx2 : (state_eq env st u).x < env.x_threshold)
    (ht1 : -env.theta_threshold_radians < (state_eq env st u).theta)
    (ht2 : (state_eq env st u).theta < env.theta_threshold_radians) :
    (stepWith env st u).reward = 1 ∧ (stepWith env st u).done = false := by
  have h : ¬ done_cond env (state_eq env st u) := by
    rintro (h | h | h | h) <;> linarith
  rw [stepWith_not_done env st u h]
  exact ⟨rfl, rfl⟩

/-- Witness for C2 at a concrete input: the all-zero state steps to the
all-zero region point, strictly inside both thresholds. -/
theorem claim_C2_witness :
    (stepWith env0 ⟨0, 0, 0, 0⟩ 0).reward = 1 ∧ (stepWith env0 ⟨0, 0, 0, 0⟩ 0).done = false :=
  claim_C2 env0 ⟨0, 0, 0, 0⟩ 0
    (by rw [x_zero]; show -(2.4 : ℝ) < 0; norm_num)
    (by rw [x_zero]; show (0 : ℝ) < 2.4; norm_num)
    (by rw [theta_zero]; linarith [thr_pos])
    (by rw [theta_zero]; exact thr_pos)

/-- C3: the returned done flag is true exactly when the post-step state
violates one of the four strict threshold comparisons, and equivalently it is
false exactly when the post-step state lies in the closed box — so a
post-step state exactly on a threshold is not done. -/
theorem claim_C3 (env : Env) (st : CPState) (u : ℝ) :
    ((stepWith env st u).done = true ↔
      ((state_eq env st u).x < -env.x_threshold ∨ (state_eq env st u).x > env.x_threshold ∨
        (state_eq env st u).theta < -env.theta_threshold_radians ∨
        (state_eq env st u).theta > env.theta_threshold_radians)) ∧
      ((stepWith env st u).done = false ↔
        (-env.x_threshold ≤ (state_eq env st u).x ∧ (state_eq env st u).x ≤ env.x_threshold ∧
          -env.theta_threshold_radians ≤ (state_eq env st u).theta ∧
          (state_eq env st u).theta ≤ env.theta_threshold_radians)) := by
  rw [stepWith_done_flag]
  constructor
  · rw [pdecide_eq_true_iff]
    exact Iff.rfl
  · rw [pdecide_eq_false_iff]
    simp only [done_cond, not_or, not_lt]

/-- C4: reward sequencing at a terminating step — when the post-step state
is done and the counter is unset at entry the call returns reward 1.0, sets
the counter to 0 and logs no warning; when the counter holds `n` at entry
the call returns reward 0.0, increments the counter to `n + 1` (so
successive post-termination calls observe strictly increasing values), and
logs the advisory warning exactly when `n = 0`, i.e. only on the first
repeat call after termination. -/
theorem claim_C4 (env : Env) (st : CPState) (u : ℝ)
    (h : done_cond env (state_eq env st u)) :
    (env.steps_beyond_done = none →
      (stepWith env st u).reward = 1 ∧
        (stepWith env st u).env.steps_beyond_done = some 0 ∧
        (stepWith env st u).warn = false) ∧
      (∀ n, env.steps_beyond_done = some n →
        (stepWith env st u).reward = 0 ∧
          (stepWith env st u).env.steps_beyond_done = some (n + 1) ∧
          ((stepWith env st u).warn = true ↔ n = 0)) := by
  constructor
  · intro hc
    rw [stepWith_done_none env st u h hc]
    exact ⟨rfl, rfl, rfl⟩
  · intro n hc
    rw [stepWith_done_some env st u n h hc]
    refine ⟨rfl, rfl, ?_⟩
    simp

/-- Witness for C4 at a concrete input: stepping from the reset state
`(-5, 0, 0.3π, 0)` with action 0 keeps `x = -5 < -2.4`, so the episode
terminates on this very step with reward 1 and counter 0. -/
theorem claim_C4_witness :
    (stepWith env0 ⟨-5, 0, 0.3 * Real.pi, 0⟩ 0).reward = 1 ∧
      (stepWith env0 ⟨-5, 0, 0.3 * Real.pi, 0⟩ 0).env.steps_beyond_done = some 0 ∧
      (stepWith env0 ⟨-5, 0, 0.3 * Real.pi, 0⟩ 0).warn = false :=
  (claim_C4 env0 ⟨-5, 0, 0.3 * Real.pi, 0⟩ 0
    (Or.inl (by rw [state_eq_x]; show (-5 : ℝ) + 0.005 * 0 < -(2.4 : ℝ); norm_num))).1 rfl

/-- C6 (as frozen) is refuted: from the input state `(0, 0, 0, 2000)` with
action 0 the Euler-updated angle is `10`, the single wrap correction leaves
`10 - 2π`, and `10 - 2π > π`, so the post-step angle is not in `(-π, π]`. -/
theorem claim_C6_counterexample :
    (state_eq env0 ⟨0, 0, 0, 2000⟩ 0).theta ∉ Set.Ioc (-Real.pi) Real.pi := by
  have hpi := Real.pi_pos
  have hpi2 := Real.pi_lt_d2
  rw [state_eq_theta, if_pos]
  · intro hmem
    rw [Set.mem_Ioc] at hmem
    have h2 := hmem.2
    have htau : env0.tau = 0.005 := rfl
    rw [htau] at h2
    norm_num at h2
    linarith
  · constructor
    · show (0 : ℝ) < Real.pi
      exact hpi
    · show (0 : ℝ) + env0.tau * 2000 ≥ Real.pi
      have htau : env0.tau = 0.005 := rfl
      rw [htau]
      norm_num
      linarith

/-- C6 (amended): under the wrap's single-crossing assumptions — pre-step
theta strictly inside `(-π, π)`, angle increment `tau·theta_dot` smaller
than one full revolution in magnitude, and Euler-updated angle not exactly
`π` — the post-step theta lies in `(-π, π]`. -/
theorem claim_C6 (env : Env) (st : CPState) (u : ℝ)
    (h1 : -Real.pi < st.theta) (h2 : st.theta < Real.pi)
    (h3 : |env.tau * st.thetadot| < 2 * Real.pi)
    (h4 : st.theta + env.tau * st.thetadot ≠ Real.pi) :
    -Real.pi < (state_eq env st u).theta ∧ (state_eq env st u).theta ≤ Real.pi := by
  obtain ⟨hd1, hd2⟩ := abs_lt.mp h3
  rw [state_eq_theta]
  split_ifs with hA hB
  · obtain ⟨hA1, hA2⟩ := hA
    have hgt : Real.pi < st.theta + env.tau * st.thetadot := lt_of_le_of_ne hA2 (Ne.symm h4)
    constructor <;> linarith
  · obtain ⟨hB1, hB2⟩ := hB
    constructor <;> linarith
  · have hA2 : st.theta + env.tau * st.thetadot < Real.pi := by
      by_contra hcon
      exact hA ⟨h2, le_of_not_lt hcon⟩
    have hB2 : -Real.pi < st.theta + env.tau * st.thetadot := by
      by_contra hcon
      exact hB ⟨h1, le_of_not_lt hcon⟩
    exact ⟨hB2, le_of_lt hA2⟩

/-- Witness for C6 at a concrete input: the all-zero state satisfies the
single-crossing hypotheses and its post-step angle stays in `(-π, π]`. -/
theorem claim_C6_witness :
    -Real.pi < (state_eq env0 ⟨0, 0, 0, 0⟩ 0).theta ∧
      (state_eq env0 ⟨0, 0, 0, 0⟩ 0).theta ≤ Real.pi :=
  claim_C6 env0 ⟨0, 0, 0, 0⟩ 0
    (by show -Real.pi < (0 : ℝ); linarith [Real.pi_pos])
    (by show (0 : ℝ) < Real.pi; exact Real.pi_pos)
    (by show |(0.005 : ℝ) * 0| < 2 * Real.pi; rw [mul_zero, abs_zero]; linarith [Real.pi_pos])
    (by show (0 : ℝ) + 0.005 * 0 ≠ Real.pi; rw [mul_zero, add_zero]; exact Real.pi_ne_zero.symm)

/-- C9: a step never clears the termination counter — the post-step counter
is unset exactly when it was unset at entry and the post-step state is not
done; when the post-step state is alive, the counter (set or not) passes
through unchanged and the reward is 1.0 even after an earlier termination;
when it is done, the counter becomes 0 from unset and `n + 1` from `n`. -/
theorem claim_C9 (env : Env) (st : CPState) (u : ℝ) :
    ((stepWith env st u).env.steps_beyond_done = none ↔
      env.steps_beyond_done = none ∧ ¬ done_cond env (state_eq env st u)) ∧
      (¬ done_cond env (state_eq env st u) →
        (stepWith env st u).env.steps_beyond_done = env.steps_beyond_done ∧
          (stepWith env st u).reward = 1) ∧
      (done_cond env (state_eq env st u) →
        (stepWith env st u).env.steps_beyond_done =
          some (env.steps_beyond_done.elim 0 fun n => n + 1)) := by
  by_cases h : done_cond env (state_eq env st u)
  · cases hc : env.steps_beyond_done with
    | none => rw [stepWith_done_none env st u h hc]; simp [h, hc]
    | some n => rw [stepWith_done_some env st u n h hc]; simp [h, hc]
  · rw [stepWith_not_done env st u h]
    simp [h]

/-- Witness for C9 at a concrete input: from the all-zero state with the
counter already holding 5, the step stays alive, keeps the counter at 5 and
still pays reward 1. -/
theorem claim_C9_witness :
    (stepWith { env0 with steps_beyond_done := some 5 } ⟨0, 0, 0, 0⟩ 0).env.steps_beyond_done =
        some 5 ∧
      (stepWith { env0 with steps_beyond_done := some 5 } ⟨0, 0, 0, 0⟩ 0).reward = 1 :=
  (claim_C9 { env0 with steps_beyond_done := some 5 } ⟨0, 0, 0, 0⟩ 0).2.1 not_done_zero

/-- C10: frame condition — a step call (through the stored state or on an
explicit state) and a reset call leave every configuration attribute set at
construction unchanged, including the physical constants, `F_t`, the
thresholds, the action/observation-space bounds and the random source; the
only fields they write are the 4-component state and the termination
counter. -/
theorem claim_C10 (env : Env) (st : CPState) (u : ℝ) :
    (configEq (stepWith env st u).env env ∧
        (stepWith env st u).env.np_random = env.np_random) ∧
      (configEq (reset env).1 env ∧ (reset env).1.np_random = env.np_random) ∧
      (match step env u with
        | none => True
        | some o => configEq o.env env ∧ o.env.np_random = env.np_random) := by
  refine ⟨stepWith_frame env st u, ⟨configEq_update env _ _, rfl⟩, ?_⟩
  cases hs : env.state with
  | none => simp [step, hs]
  | some st2 =>
      simp only [step, hs, Option.map_some']
      exact stepWith_frame env st2 u

end

end CartPole
